import Mathlib

/-!
Verification of the per-frame completion coordinator and control-plane
transaction engine of the libcamera snapshot.

The definitions below are shallow embeddings of the C++ sources:

* `LibCamera.V4L2` models `V4L2Device::setControls` and
  `V4L2Device::updateControls` (src/libcamera/v4l2_device.cpp).
* `LibCamera.IPU3` models `IPU3Frames::tryComplete`
  (src/libcamera/pipeline/ipu3/frames.h).
* `LibCamera.RkISP1` models the auto-exposure loop of the RkISP1 IPA
  (`IPARkISP1::configure`, `IPARkISP1::updateStatistics`,
  `IPARkISP1::setControls`, `IPARkISP1::metadataReady`).
* `LibCamera.Vimc` models `VimcCameraData::bufferReady`
  (src/libcamera/pipeline/vimc/vimc.cpp).

Machine integers are modelled as `Nat`/`Int` with explicit wrap-around where
the source relies on it; the source's `double` arithmetic is modelled exactly
over `ℚ` (the verified properties do not depend on rounding).
-/

set_option maxRecDepth 4000

namespace LibCamera

namespace V4L2

/-- Control types, mirroring the subset of `ControlType` that
`V4L2Device::setControls` distinguishes: `ControlTypeInteger64`,
`ControlTypeByte`, and the scalar default branch (`value.get<int32_t>()`). -/
inductive ControlType where
  | integer32
  | integer64
  | boolean
  | byte
deriving DecidableEq, Repr

/-- A `ControlValue`: the tagged value storage of a `ControlList` entry.
`empty` models a default-constructed `ControlValue` (`ControlTypeNone`). -/
inductive ControlValue where
  | empty
  | int32 (v : Int)
  | int64 (v : Int)
  | boolean (b : Bool)
  | bytes (data : List Nat)
deriving DecidableEq, Repr

/-- `ControlValue::get<int32_t>()`.  The source asserts on a type mismatch;
the mismatched branches are never taken on the modelled call paths. -/
def ControlValue.getInt32 : ControlValue → Int
  | .int32 v => v
  | _ => 0

/-- `ControlValue::get<int64_t>()`; same caveat as `getInt32`. -/
def ControlValue.getInt64 : ControlValue → Int
  | .int64 v => v
  | _ => 0

/-- `ControlValue::isArray()`. -/
def ControlValue.isArray : ControlValue → Bool
  | .bytes _ => true
  | _ => false

/-- A `ControlList` is an ordered association of control id to value with
unique ids; the index of an entry is its position in iteration order, which
is the order the batched `v4l2_ext_control` array is built in. -/
abbrev ControlList := List (Nat × ControlValue)

/-- `ControlList::get(id)`: value of the entry with the given id, or a
default-constructed (empty) value when absent. -/
def ctlGet : ControlList → Nat → ControlValue
  | [], _ => .empty
  | (i, w) :: rest, id => if i = id then w else ctlGet rest id

/-- `ControlList::set(id, value)`: update the entry with the given id in
place, appending a fresh entry when the id is absent. -/
def ctlSet : ControlList → Nat → ControlValue → ControlList
  | [], id, v => [(id, v)]
  | (i, w) :: rest, id, v =>
    if i = id then (id, v) :: rest else (i, w) :: ctlSet rest id v

/-- The device model behind a `V4L2Device`:

* `controls` is the `controls_` map built by `listControls()`, associating
  each supported control id with its `ControlId` type.  `listControls()`
  skips only `V4L2_CTRL_TYPE_CTRL_CLASS` and `V4L2_CTRL_FLAG_DISABLED`
  controls, so read-only controls are present in `controls_`.
* `readOnly` is the `V4L2_CTRL_FLAG_READ_ONLY` flag of the corresponding
  `controlInfo_` entry.  `setControls` never consults it; it is part of the
  model only so that statements about read-only controls can be made. -/
structure DeviceModel where
  controls : List (Nat × ControlType)
  readOnly : Nat → Bool

/-- One `v4l2_ext_control` slot, zero-initialised by the source's `memset`.
`payload` stands for the `p_u8`/`size` pair of a byte-array control. -/
structure V4l2ExtControl where
  id : Nat
  value : Int
  value64 : Int
  payload : List Nat
deriving DecidableEq, Repr

/-- Marshal one `ControlList` entry into its `v4l2_ext_control` slot, per the
`switch (iter->first->type())` of `setControls`: `ControlTypeInteger64` fills
`value64`, `ControlTypeByte` requires an array value (else the call fails
with `-EINVAL`) and shares the payload, and the default branch fills `value`
with `value.get<int32_t>()`. -/
def marshalControl (t : ControlType) (id : Nat) (v : ControlValue) :
    Option V4l2ExtControl :=
  match t with
  | .integer64 => some ⟨id, 0, v.getInt64, []⟩
  | .byte =>
    match v with
    | .bytes data => some ⟨id, 0, 0, data⟩
    | _ => none
  | _ => some ⟨id, v.getInt32, 0, []⟩

/-- The validation-and-marshal loop of `setControls`: each entry's id is
looked up in `controls_` (`none` on the first unknown id, i.e. the source
returns `-EINVAL` before any device I/O), then the slot is filled. -/
def marshalControls (dev : DeviceModel) : ControlList → Option (List V4l2ExtControl)
  | [] => some []
  | (id, v) :: rest =>
    match dev.controls.lookup id with
    | none => none
    | some t =>
      match marshalControl t id v with
      | none => none
      | some c => (marshalControls dev rest).map (fun cs => c :: cs)

/-- The value written back into a `ControlList` entry by `updateControls`
for one returned `v4l2_ext_control`: `value64` for `ControlTypeInteger64`,
no action for `ControlTypeByte` (the ioctl accessed the shared storage
directly), `value` otherwise. -/
def appliedValue (t : ControlType) (old : ControlValue) (c : V4l2ExtControl) :
    ControlValue :=
  match t with
  | .integer64 => .int64 c.value64
  | .byte => old
  | _ => .int32 c.value

/-- One iteration of `V4L2Device::updateControls`: fetch the current value,
overwrite it from the returned slot according to the control's type, and
store it back.  The source asserts that the id is present in `controls_`;
the `none` branch is never taken on the modelled call paths. -/
def updateControl (dev : DeviceModel) (ctrls : ControlList)
    (c : V4l2ExtControl) : ControlList :=
  match dev.controls.lookup c.id with
  | none => ctrls
  | some t => ctlSet ctrls c.id (appliedValue t (ctlGet ctrls c.id) c)

/-- `V4L2Device::updateControls`: fold `updateControl` over the span of
returned `v4l2_ext_control` slots. -/
def updateControls (dev : DeviceModel) (ctrls : ControlList)
    (v4l2Ctrls : List V4l2ExtControl) : ControlList :=
  v4l2Ctrls.foldl (updateControl dev) ctrls

/-- The outcome of the `VIDIOC_S_EXT_CTRLS` ioctl, abstracting the driver:
`ret` is the ioctl return value (0 on success, a negative errno otherwise),
`errorIdx` is `v4l2ExtCtrls.error_idx`, and `returned` is the control array
as written back by the driver (device-applied values). -/
structure IoctlSetResult where
  ret : Int
  errorIdx : Nat
  returned : List V4l2ExtControl
deriving Repr

/-- The observable outcome of `V4L2Device::setControls`: the returned code,
the final contents of the caller's `ControlList`, and whether the
`VIDIOC_S_EXT_CTRLS` ioctl was issued at all. -/
structure SetControlsOutcome where
  ret : Int
  ctrls : ControlList
  ioIssued : Bool
deriving DecidableEq, Repr

def EINVAL : Int := 22

/-- `V4L2Device::setControls`, shallowly embedded.  `resp` is the driver's
response to the batched write.  An empty list succeeds trivially with no
I/O; a validation failure returns `-EINVAL` with no I/O; on ioctl failure,
`error_idx = 0` or `error_idx ≥ count` is a generic validation error
(`-EINVAL`, list untouched), otherwise the array is resized to `error_idx`,
the written prefix is folded back into the list, and `error_idx` is
returned. -/
def setControls (dev : DeviceModel) (resp : IoctlSetResult)
    (ctrls : ControlList) : SetControlsOutcome :=
  if ctrls.isEmpty then ⟨0, ctrls, false⟩
  else
    match marshalControls dev ctrls with
    | none => ⟨-EINVAL, ctrls, false⟩
    | some _ =>
      if resp.ret = 0 then
        ⟨0, updateControls dev ctrls resp.returned, true⟩
      else if resp.errorIdx = 0 ∨ ctrls.length ≤ resp.errorIdx then
        ⟨-EINVAL, ctrls, true⟩
      else
        ⟨(resp.errorIdx : Int),
         updateControls dev ctrls (resp.returned.take resp.errorIdx), true⟩

/-- The entry produced for `p` by `updateControl` when the returned slot `c`
has the same id: the device-applied value, by the control's type. -/
def devApplied (dev : DeviceModel) (p : Nat × ControlValue)
    (c : V4l2ExtControl) : Nat × ControlValue :=
  match dev.controls.lookup p.1 with
  | none => p
  | some t => (p.1, appliedValue t p.2 c)

end V4L2

namespace IPU3

/-- Modelled from the spec: the per-frame tracking record
`IPU3Frames::Info` is declared in src/libcamera/pipeline/ipu3/frames.h; the
member function bodies (frames.cpp) are absent from the sources.  Per spec
§3, the record carries the frame id, the buffer references, and the two
completion flags; `rawBufferComplete` renders the raw buffer's completion
status that `tryComplete` consults. -/
structure Info where
  id : Nat
  rawBufferComplete : Bool
  paramDequeued : Bool
  metadataProcessed : Bool
deriving DecidableEq, Repr

/-- Modelled from the spec: `IPU3Frames::tryComplete(info)` (implementation
absent from the sources) returns true iff the raw buffer has completed AND
`paramDequeued` AND `metadataProcessed` are both set.  It is
side-effect-free, which the embedding renders by its type: it reads the
record and returns only a `Bool`, leaving the record and the buffer pools
untouched. -/
def tryComplete (info : Info) : Bool :=
  info.rawBufferComplete && info.paramDequeued && info.metadataProcessed

end IPU3

namespace RkISP1

/-- `V4L2_CID_EXPOSURE` (`V4L2_CID_BASE` + 17). -/
def CID_EXPOSURE : Nat := 9963793

/-- `V4L2_CID_ANALOGUE_GAIN` (`V4L2_CID_IMAGE_SOURCE_CLASS_BASE` + 3). -/
def CID_ANALOGUE_GAIN : Nat := 10356995

/-- The `min()`/`max()` bounds of one `ControlInfo` entry, read through
`get<int32_t>()`. -/
structure ControlInfoEntry where
  min : Int
  max : Int
deriving DecidableEq, Repr

/-- A `ControlInfoMap`: association of control id to its info. -/
abbrev ControlInfoMap := List (Nat × ControlInfoEntry)

/-- Conversion of an `int32_t` value to `uint32_t` (the
`std::max<uint32_t>` call converts its arguments; negative values wrap
modulo 2^32). -/
def toU32 (v : Int) : Nat := (v % 4294967296).toNat

/-- `static_cast<int32_t>` of a `uint32_t` value. -/
def toI32 (v : Nat) : Int :=
  if v % 4294967296 < 2147483648 then ((v % 4294967296 : Nat) : Int)
  else ((v % 4294967296 : Nat) : Int) - 4294967296

/-- The sensor-control state of `IPARkISP1`: `autoExposure_`, `exposure_`
and its discovered range, `gain_` and its discovered range. -/
structure AeState where
  autoExposure : Bool
  exposure : Nat
  minExposure : Nat
  maxExposure : Nat
  gain : Nat
  minGain : Nat
  maxGain : Nat
deriving DecidableEq, Repr

/-- `IPARkISP1::configure`: fails with -EINVAL when `entityControls` is
empty, or when the exposure or the gain control is absent from the entity-0
map; otherwise it initialises the ranges (lower bounds raised to at least
1, upper bounds taken as reported) and sets exposure and gain to their
minima.  `entityControls` is keyed by entity index in the source and the
pipeline always populates entry 0; the map is modelled positionally. -/
def configure (entityControls : List ControlInfoMap) : Except Int AeState :=
  match entityControls with
  | [] => .error (-22)
  | ctrls :: _ =>
    match ctrls.lookup CID_EXPOSURE with
    | none => .error (-22)
    | some expInfo =>
      match ctrls.lookup CID_ANALOGUE_GAIN with
      | none => .error (-22)
      | some gainInfo =>
        .ok { autoExposure := true,
              exposure := max (toU32 expInfo.min) 1,
              minExposure := max (toU32 expInfo.min) 1,
              maxExposure := toU32 expInfo.max,
              gain := max (toU32 gainInfo.min) 1,
              minGain := max (toU32 gainInfo.min) 1,
              maxGain := toU32 gainInfo.max }

/-- The auto-exposure slice of an `rkisp1_stat_buffer`: whether
`RKISP1_CIF_ISP_STAT_AUTOEXP` is set in `meas_type`, and the
`RKISP1_CIF_ISP_AE_MEAN_MAX_V10` (25) per-window brightness samples
`ae->exp_mean` (8-bit values). -/
structure StatBuffer where
  measAutoExp : Bool
  expMean : List Nat
deriving DecidableEq, Repr

/-- The sum of the brightness samples retained by the noise filter: samples
at or below 15 are skipped (`if (ae->exp_mean[i] <= 15) continue`). -/
def robustSum (ms : List Nat) : Nat := (ms.filter (fun m => 15 < m)).sum

/-- The number of retained samples, i.e. the divisor `num` of the robust
mean. -/
def robustCount (ms : List Nat) : Nat := (ms.filter (fun m => 15 < m)).length

/-- The robust mean `value /= num` (unsigned integer division).  When every
sample is at or below the noise floor the divisor `num` is zero: the
source's division is undefined behaviour there, while this total model
returns 0. -/
def aeMean (ms : List Nat) : Nat := robustSum ms / robustCount ms

/-- `double factor = (double)target / value` with the hard-coded target 60,
modelled exactly over ℚ. -/
def aeFactor (ms : List Nat) : ℚ := 60 / (aeMean ms : ℚ)

/-- `std::clamp<uint64_t>(v, lo, hi)`, modelled by its definition
`v < lo ? lo : hi < v ? hi : v`. -/
def clampU64 (v lo hi : Nat) : Nat :=
  if v < lo then lo else if hi < v then hi else v

/-- `(uint64_t)e` for a nonnegative double: truncation toward zero. -/
def toU64 (q : ℚ) : Nat := q.floor.toNat

/-- `exposure = factor * exposure_ * gain_ / minGain_` (double arithmetic
over ℚ). -/
def aeRawExposure (s : AeState) (factor : ℚ) : ℚ :=
  factor * (s.exposure : ℚ) * (s.gain : ℚ) / (s.minGain : ℚ)

/-- The updated `exposure_`: the raw value truncated and clamped to
`[minExposure_, maxExposure_]`. -/
def aeNewExposure (s : AeState) (factor : ℚ) : Nat :=
  clampU64 (toU64 (aeRawExposure s factor)) s.minExposure s.maxExposure

/-- The updated `gain_`: the residual correction
`exposure / exposure_ * minGain_` — computed from the already-updated,
clamped `exposure_` — truncated and clamped to `[minGain_, maxGain_]`. -/
def aeNewGain (s : AeState) (factor : ℚ) : Nat :=
  clampU64
    (toU64 (aeRawExposure s factor / ((aeNewExposure s factor : Nat) : ℚ) *
      (s.minGain : ℚ)))
    s.minGain s.maxGain

/-- The cadence-frame body of the AE loop: `exposure_` is updated first,
then `gain_` from the residual correction. -/
def aeStep (s : AeState) (factor : ℚ) : AeState :=
  { s with exposure := aeNewExposure s factor, gain := aeNewGain s factor }

/-- An `RkISP1Action` emitted through `queueFrameAction`, reduced to the
payload the claims depend on: `v4l2Set` carries the `V4L2_CID_EXPOSURE` and
`V4L2_CID_ANALOGUE_GAIN` values that `IPARkISP1::setControls` queues;
`metadata` carries the `AeLocked` metadata entry that
`IPARkISP1::metadataReady` queues (absent when `aeState` is 0). -/
inductive Action where
  | paramFilled
  | v4l2Set (exposure gain : Int)
  | metadata (aeLocked : Option Bool)
deriving DecidableEq, Repr

/-- `IPARkISP1::setControls(frame)`: emit `ActionV4L2Set` with the stored
exposure and gain, cast to `int32_t`. -/
def setControlsAction (s : AeState) : Action :=
  .v4l2Set (toI32 s.exposure) (toI32 s.gain)

/-- `IPARkISP1::metadataReady(frame, aeState)`: the metadata action sets
`AeLocked` to `aeState == 2` when `aeState` is nonzero. -/
def metadataAction (aeState : Nat) : Action :=
  .metadata (if aeState = 0 then none else some (aeState == 2))

/-- `aeState = fabs(factor - 1.0f) < 0.05f ? 2 : 1` (2 = converged, 1 = not
converged).  The float literal 0.05f is modelled by the rational 1/20; the
verified instances lie far from the representation gap. -/
def aeStateOf (factor : ℚ) : Nat := if |factor - 1| < 1/20 then 2 else 1

/-- `IPARkISP1::updateStatistics`: when the statistics carry auto-exposure
measurements, compute the robust mean and the correction factor; on every
third frame (`frame % 3 == 0`) update exposure then gain and emit the
controls-to-apply action for frame + 1; always finish with the metadata
action carrying the convergence state (`aeState` stays 0 when the
statistics carry no AE measurements). -/
def updateStatistics (frame : Nat) (stats : StatBuffer) (s : AeState) :
    AeState × List Action :=
  if stats.measAutoExp then
    let factor := aeFactor stats.expMean
    let stepped := if frame % 3 = 0 then aeStep s factor else s
    let acts :=
      if frame % 3 = 0 then [setControlsAction (aeStep s factor)] else []
    (stepped, acts ++ [metadataAction (aeStateOf factor)])
  else
    (s, [metadataAction 0])

/-- Recogniser for the controls-to-apply action. -/
def Action.isV4l2Set : Action → Bool
  | .v4l2Set _ _ => true
  | _ => false

end RkISP1

namespace Vimc

/-- One `VimcCameraData::bufferReady` invocation: the completed
`FrameBuffer` and the request it belongs to (`buffer->request()`). -/
structure BufferEvent where
  buffer : Nat
  request : Nat
deriving DecidableEq, Repr

/-- The two completion notifications a pipeline handler invokes
(`PipelineHandler::completeBuffer` and `PipelineHandler::completeRequest`). -/
inductive Notification where
  | bufferCompleted (request buffer : Nat)
  | requestCompleted (request : Nat)
deriving DecidableEq, Repr

/-- `VimcCameraData::bufferReady(buffer)`: record the timestamp metadata,
then complete the buffer, then complete its request.  The vimc pipeline has
a single stream, so the request holds exactly this buffer. -/
def bufferReady (e : BufferEvent) : List Notification :=
  [.bufferCompleted e.request e.buffer, .requestCompleted e.request]

/-- The notification trace of a capture session: the concatenation of the
notifications of each buffer-completion event, in hardware completion
order. -/
def trace (events : List BufferEvent) : List Notification :=
  events.foldr (fun e acc => bufferReady e ++ acc) []

/-- Whether a notification concerns the given request. -/
def aboutRequest (r : Nat) : Notification → Bool
  | .bufferCompleted q _ => q == r
  | .requestCompleted q => q == r

end Vimc

/-! ### Supporting lemmas for the control-plane transaction engine -/

namespace V4L2

theorem devApplied_fst (dev : DeviceModel) (p : Nat × ControlValue)
    (c : V4l2ExtControl) : (devApplied dev p c).1 = p.1 := by
  unfold devApplied
  cases dev.controls.lookup p.1 <;> rfl

theorem updateControl_cons (dev : DeviceModel) (q : Nat × ControlValue)
    (rest : ControlList) (c : V4l2ExtControl) (h : c.id ≠ q.1) :
    updateControl dev (q :: rest) c = q :: updateControl dev rest c := by
  obtain ⟨i, w⟩ := q
  have hi : ¬ i = c.id := fun hh => h hh.symm
  unfold updateControl
  cases dev.controls.lookup c.id with
  | none => rfl
  | some t => simp [ctlGet, ctlSet, hi]

theorem updateControls_cons (dev : DeviceModel) (q : Nat × ControlValue)
    (rest : ControlList) (cs : List V4l2ExtControl)
    (h : ∀ c ∈ cs, c.id ≠ q.1) :
    updateControls dev (q :: rest) cs = q :: updateControls dev rest cs := by
  induction cs generalizing rest with
  | nil => rfl
  | cons c cs ih =>
    have h1 : c.id ≠ q.1 := h c (by simp)
    show List.foldl (updateControl dev) (updateControl dev (q :: rest) c) cs
        = q :: List.foldl (updateControl dev) (updateControl dev rest c) cs
    rw [updateControl_cons dev q rest c h1]
    exact ih (updateControl dev rest c) (fun c' hc' => h c' (by simp [hc']))

/-- Folding the first `cs.length` returned slots back into a list whose ids
match them pointwise rewrites exactly that prefix of the list to the
device-applied values and leaves the remaining entries untouched. -/
theorem updateControls_eq_zip (dev : DeviceModel) :
    ∀ (cs : List V4l2ExtControl) (ctrls : ControlList),
    cs.map V4l2ExtControl.id = (ctrls.take cs.length).map Prod.fst →
    (ctrls.map Prod.fst).Nodup →
    updateControls dev ctrls cs =
      List.zipWith (devApplied dev) (ctrls.take cs.length) cs ++
        ctrls.drop cs.length := by
  intro cs
  induction cs with
  | nil => intro ctrls _ _; simp [updateControls]
  | cons c cs ih =>
    intro ctrls hids hnd
    cases ctrls with
    | nil => simp at hids
    | cons p rest =>
      obtain ⟨pid, pv⟩ := p
      simp only [List.length_cons, List.take_succ_cons, List.map_cons,
        List.cons.injEq] at hids
      obtain ⟨h1, h2⟩ := hids
      simp only [List.map_cons, List.nodup_cons] at hnd
      obtain ⟨hnotin, hnd'⟩ := hnd
      have hne : ∀ c' ∈ cs, c'.id ≠ pid := by
        intro c' hc' he
        apply hnotin
        have hmem : c'.id ∈ (rest.take cs.length).map Prod.fst := by
          rw [← h2]; exact List.mem_map_of_mem _ hc'
        have hmem' : c'.id ∈ rest.map Prod.fst :=
          List.map_subset _ (List.take_subset _ _) hmem
        exact he ▸ hmem'
      have hstep : updateControl dev ((pid, pv) :: rest) c =
          devApplied dev (pid, pv) c :: rest := by
        unfold updateControl devApplied
        rw [h1]
        cases dev.controls.lookup pid with
        | none => rfl
        | some t => simp [ctlGet, ctlSet]
      have hne' : ∀ c' ∈ cs, c'.id ≠ (devApplied dev (pid, pv) c).1 := by
        intro c' hc'
        rw [devApplied_fst]
        exact hne c' hc'
      calc updateControls dev ((pid, pv) :: rest) (c :: cs)
          = updateControls dev (devApplied dev (pid, pv) c :: rest) cs := by
            show List.foldl (updateControl dev)
                (updateControl dev ((pid, pv) :: rest) c) cs = _
            rw [hstep]; rfl
        _ = devApplied dev (pid, pv) c :: updateControls dev rest cs :=
            updateControls_cons dev _ rest cs hne'
        _ = devApplied dev (pid, pv) c ::
              (List.zipWith (devApplied dev) (rest.take cs.length) cs ++
                rest.drop cs.length) := by rw [ih rest h2 hnd']
        _ = List.zipWith (devApplied dev)
              (((pid, pv) :: rest).take (c :: cs).length) (c :: cs) ++
              ((pid, pv) :: rest).drop (c :: cs).length := by
            simp

theorem marshal_none_of_unknown (dev : DeviceModel) :
    ∀ ctrls : ControlList,
    (∃ pr ∈ ctrls, dev.controls.lookup pr.1 = none) →
    marshalControls dev ctrls = none := by
  intro ctrls
  induction ctrls with
  | nil => intro h; simp at h
  | cons p rest ih =>
    intro h
    obtain ⟨pid, pv⟩ := p
    unfold marshalControls
    cases hl : dev.controls.lookup pid with
    | none => rfl
    | some t =>
      cases hm : marshalControl t pid pv with
      | none => simp [hm]
      | some c =>
        have hr : ∃ pr ∈ rest, dev.controls.lookup pr.1 = none := by
          obtain ⟨q, hq, hqn⟩ := h
          rcases List.mem_cons.mp hq with hq1 | hq2
          · subst hq1
            have hgn : List.lookup pid dev.controls = none := hqn
            rw [hl] at hgn
            cases hgn
          · exact ⟨q, hq2, hqn⟩
        simp [hm, ih hr]

theorem setControls_notEmptyCond (ctrls : ControlList) (hne : ctrls ≠ []) :
    ¬ (ctrls.isEmpty = true) := by
  simp [List.isEmpty_iff, hne]

theorem setControls_of_marshal_none (dev : DeviceModel)
    (resp : IoctlSetResult) (ctrls : ControlList)
    (h : marshalControls dev ctrls = none) (hne : ctrls ≠ []) :
    setControls dev resp ctrls = ⟨-EINVAL, ctrls, false⟩ := by
  unfold setControls
  rw [if_neg (setControls_notEmptyCond ctrls hne), h]

theorem setControls_io_of_marshal_some (dev : DeviceModel)
    (resp : IoctlSetResult) (ctrls : ControlList) (m : List V4l2ExtControl)
    (h : marshalControls dev ctrls = some m) (hne : ctrls ≠ []) :
    (setControls dev resp ctrls).ioIssued = true := by
  unfold setControls
  rw [if_neg (setControls_notEmptyCond ctrls hne), h]
  by_cases hr : resp.ret = 0
  · rw [if_pos hr]
  · rw [if_neg hr]
    by_cases hi : resp.errorIdx = 0 ∨ ctrls.length ≤ resp.errorIdx
    · rw [if_pos hi]
    · rw [if_neg hi]

theorem setControls_generic_aux (dev : DeviceModel) (resp : IoctlSetResult)
    (ctrls : ControlList) (m : List V4l2ExtControl)
    (h : marshalControls dev ctrls = some m) (hne : ctrls ≠ [])
    (hret : resp.ret ≠ 0)
    (hidx : resp.errorIdx = 0 ∨ ctrls.length ≤ resp.errorIdx) :
    setControls dev resp ctrls = ⟨-EINVAL, ctrls, true⟩ := by
  unfold setControls
  rw [if_neg (setControls_notEmptyCond ctrls hne), h, if_neg hret, if_pos hidx]

/-- Claim C1: for a non-empty `ControlList` whose ids all pass validation,
if the device rejects the batched write at index `i` with
`0 < i < ctrls.length`, then `setControls` updates every entry with index
lower than `i` to the device-applied value (the prefix becomes the zip of
the old entries with the driver-returned slots), leaves every entry with
index `i` or greater unchanged (`ctrls.drop i`), and returns `i`. -/
theorem setControls_deviceRejectsMidway (dev : DeviceModel)
    (resp : IoctlSetResult) (ctrls : ControlList) (i : Nat)
    (m : List V4l2ExtControl)
    (hval : marshalControls dev ctrls = some m)
    (hnd : (ctrls.map Prod.fst).Nodup)
    (hret : resp.ret ≠ 0)
    (hidx : resp.errorIdx = i)
    (hpos : 0 < i) (hlt : i < ctrls.length)
    (hids : (resp.returned.take i).map V4l2ExtControl.id =
      (ctrls.take i).map Prod.fst)
    (hlen : i ≤ resp.returned.length) :
    setControls dev resp ctrls =
      ⟨(i : Int),
       List.zipWith (devApplied dev) (ctrls.take i) (resp.returned.take i) ++
         ctrls.drop i,
       true⟩ := by
  subst hidx
  have hne : ctrls ≠ [] := List.length_pos.mp (Nat.lt_trans hpos hlt)
  have hnor : ¬ (resp.errorIdx = 0 ∨ ctrls.length ≤ resp.errorIdx) :=
    not_or.mpr ⟨hpos.ne', not_le.mpr hlt⟩
  unfold setControls
  rw [if_neg (setControls_notEmptyCond ctrls hne), hval, if_neg hret,
    if_neg hnor]
  have hclen : (resp.returned.take resp.errorIdx).length = resp.errorIdx := by
    rw [List.length_take]
    exact Nat.min_eq_left hlen
  have hz := updateControls_eq_zip dev (resp.returned.take resp.errorIdx)
    ctrls (by rw [hclen]; exact hids) hnd
  rw [hclen] at hz
  rw [hz]

theorem setControls_deviceRejectsMidway_witness :
    setControls
      ⟨[(1, .integer32), (2, .integer32), (3, .integer32)], fun _ => false⟩
      ⟨-5, 2, [⟨1, 11, 0, []⟩, ⟨2, 21, 0, []⟩, ⟨3, 31, 0, []⟩]⟩
      [(1, .int32 10), (2, .int32 20), (3, .int32 30)] =
      ⟨2, [(1, .int32 11), (2, .int32 21), (3, .int32 30)], true⟩ :=
  setControls_deviceRejectsMidway _ _ _ 2
    [⟨1, 10, 0, []⟩, ⟨2, 20, 0, []⟩, ⟨3, 30, 0, []⟩]
    rfl (by decide) (by decide) rfl (by decide) (by decide) rfl (by decide)

/-- Claim C4: when the device reports a failure index equal to 0 or greater
than or equal to the request length, `setControls` treats it as a generic
validation failure: it returns `-EINVAL` and no entry of the list is
modified. -/
theorem setControls_genericValidationFailure (dev : DeviceModel)
    (resp : IoctlSetResult) (ctrls : ControlList) (m : List V4l2ExtControl)
    (hval : marshalControls dev ctrls = some m) (hne : ctrls ≠ [])
    (hret : resp.ret ≠ 0)
    (hidx : resp.errorIdx = 0 ∨ ctrls.length ≤ resp.errorIdx) :
    setControls dev resp ctrls = ⟨-EINVAL, ctrls, true⟩ :=
  setControls_generic_aux dev resp ctrls m hval hne hret hidx

theorem setControls_genericValidationFailure_witness :
    setControls ⟨[(1, .integer32), (2, .integer32)], fun _ => false⟩
      ⟨-22, 0, []⟩ [(1, .int32 3), (2, .int32 4)] =
      ⟨-EINVAL, [(1, .int32 3), (2, .int32 4)], true⟩ :=
  setControls_genericValidationFailure _ _ _ [⟨1, 3, 0, []⟩, ⟨2, 4, 0, []⟩]
    rfl (by decide) (by decide) (Or.inl rfl)

/-- Claim C3 (amended): a `ControlList` containing an id unknown to the
device fails wholesale with `-EINVAL`, issues no device I/O, and modifies
no entry.  Read-only ids, by contrast, are not rejected by the up-front
validation (only membership in `controls_` is checked): when every id is
known, device I/O is issued even if some id is read-only, and the
device-side rejection — surfacing as a generic failure index — then yields
`-EINVAL` with no entry modified. -/
theorem setControls_unknownOnlyValidation :
    (∀ (dev : DeviceModel) (resp : IoctlSetResult) (ctrls : ControlList),
      (∃ pr ∈ ctrls, dev.controls.lookup pr.1 = none) →
      setControls dev resp ctrls = ⟨-EINVAL, ctrls, false⟩) ∧
    (∀ (dev : DeviceModel) (resp : IoctlSetResult) (ctrls : ControlList)
      (m : List V4l2ExtControl),
      marshalControls dev ctrls = some m → ctrls ≠ [] →
      (∃ pr ∈ ctrls, dev.readOnly pr.1 = true) →
      (setControls dev resp ctrls).ioIssued = true ∧
        (resp.ret ≠ 0 →
          (resp.errorIdx = 0 ∨ ctrls.length ≤ resp.errorIdx) →
          setControls dev resp ctrls = ⟨-EINVAL, ctrls, true⟩)) := by
  constructor
  · intro dev resp ctrls h
    have hne : ctrls ≠ [] := by
      rintro rfl
      obtain ⟨q, hq, _⟩ := h
      cases hq
    exact setControls_of_marshal_none dev resp ctrls
      (marshal_none_of_unknown dev ctrls h) hne
  · intro dev resp ctrls m hm hne _hro
    exact ⟨setControls_io_of_marshal_some dev resp ctrls m hm hne,
      fun hret hidx => setControls_generic_aux dev resp ctrls m hm hne hret hidx⟩

theorem setControls_unknownOnlyValidation_witness :
    (setControls ⟨[(1, .integer32)], fun _ => false⟩ ⟨0, 0, []⟩
        [(1, .int32 7), (5, .int32 8)] =
      ⟨-EINVAL, [(1, .int32 7), (5, .int32 8)], false⟩) ∧
    (setControls ⟨[(1, .integer32)], fun id => id == 1⟩
        ⟨-13, 1, [⟨1, 0, 0, []⟩]⟩ [(1, .int32 5)]).ioIssued = true :=
  ⟨setControls_unknownOnlyValidation.1 _ _ _
      ⟨(5, .int32 8), by decide, rfl⟩,
   (setControls_unknownOnlyValidation.2 ⟨[(1, .integer32)], fun id => id == 1⟩
      ⟨-13, 1, [⟨1, 0, 0, []⟩]⟩ [(1, .int32 5)] [⟨1, 5, 0, []⟩] rfl
      (by decide) ⟨(1, .int32 5), by decide, rfl⟩).1⟩

/-- Counterexample to claim C3 as stated: a list holding a single control
that the device knows and flags read-only passes the up-front validation,
so `setControls` does issue device I/O — the claim asserts none occurs.
(The device-side rejection still ends in `-EINVAL` with the list
unmodified, which is the amended behaviour.) -/
theorem setControls_readOnly_cex :
    ((⟨[(1, ControlType.integer32)], fun id => id == 1⟩ :
        DeviceModel).readOnly 1 = true) ∧
    (setControls ⟨[(1, ControlType.integer32)], fun id => id == 1⟩
        ⟨-13, 1, [⟨1, 0, 0, []⟩]⟩ [(1, .int32 5)]).ioIssued = true ∧
    setControls ⟨[(1, ControlType.integer32)], fun id => id == 1⟩
        ⟨-13, 1, [⟨1, 0, 0, []⟩]⟩ [(1, .int32 5)] =
      ⟨-EINVAL, [(1, .int32 5)], true⟩ := by
  refine ⟨rfl, ?_, ?_⟩ <;> decide

end V4L2

/-! ### Frame-tracker completion predicate -/

namespace IPU3

/-- Claim C2: `tryComplete` returns true if and only if the raw buffer has
completed and the `paramDequeued` and `metadataProcessed` flags are both
set; quantifying over the three booleans covers all 8 combinations, and
the modelled function is pure (it returns only a `Bool`), so it has no side
effect on the record or the pools. -/
theorem tryComplete_iff_flags :
    ∀ (info : Info),
      tryComplete info = true ↔
        (info.rawBufferComplete = true ∧ info.paramDequeued = true ∧
          info.metadataProcessed = true) := by
  intro info
  simp [tryComplete, Bool.and_eq_true, and_assoc]

theorem tryComplete_iff_flags_witness :
    tryComplete ⟨7, true, true, true⟩ = true :=
  (tryComplete_iff_flags ⟨7, true, true, true⟩).mpr ⟨rfl, rfl, rfl⟩

end IPU3

/-! ### RkISP1 auto-exposure loop -/

namespace RkISP1

theorem clampU64_mem (v lo hi : Nat) (h : lo ≤ hi) :
    lo ≤ clampU64 v lo hi ∧ clampU64 v lo hi ≤ hi := by
  unfold clampU64
  split
  · exact ⟨Nat.le_refl lo, h⟩
  · split
    · exact ⟨h, Nat.le_refl hi⟩
    · omega

/-- Claim C10: the robust-mean step divides the sum of retained samples by
the count of samples strictly above the noise floor of 15 (`aeMean` is that
quotient by definition); for an input in which every sample is at or below
15 the divisor `robustCount` is zero, so the source's division `value /=
num` is well-defined only when at least one sample exceeds the floor. -/
theorem robustMeanDivisorZero :
    (∀ ms : List Nat, aeMean ms = robustSum ms / robustCount ms) ∧
    (∀ ms : List Nat, (∀ m ∈ ms, m ≤ 15) → robustCount ms = 0) ∧
    (∀ ms : List Nat, robustCount ms = 0 ↔ ∀ m ∈ ms, m ≤ 15) := by
  refine ⟨fun ms => rfl, ?_, ?_⟩
  · intro ms h
    simp only [robustCount, List.length_eq_zero, List.filter_eq_nil_iff]
    intro m hm
    simpa using h m hm
  · intro ms
    simp only [robustCount, List.length_eq_zero, List.filter_eq_nil_iff]
    constructor
    · intro h m hm
      have := h m hm
      simpa using this
    · intro h m hm
      simpa using h m hm

theorem robustMeanDivisorZero_witness :
    robustCount [10, 15, 0] = 0 :=
  robustMeanDivisorZero.2.1 [10, 15, 0] (by decide)

/-- Claim C5: for statistics carrying auto-exposure measurements whose
robust regional brightness mean is 120 against the hard-coded target 60,
the step computes `factor = 1/2` and the metadata-ready action (always the
last emitted action) reports non-converged state (`AeLocked = false`);
moreover the metadata-ready action reports converged state
(`AeLocked = true`) exactly when `|factor - 1| < 1/20` (the source's 0.05
threshold). -/
theorem aeConvergenceReport :
    (∀ (stats : StatBuffer) (s : AeState) (frame : Nat),
      stats.measAutoExp = true → aeMean stats.expMean = 120 →
      aeFactor stats.expMean = 1/2 ∧
      (updateStatistics frame stats s).2.getLast? =
        some (Action.metadata (some false))) ∧
    (∀ (stats : StatBuffer) (s : AeState) (frame : Nat),
      stats.measAutoExp = true →
      ((updateStatistics frame stats s).2.getLast? =
          some (Action.metadata (some true)) ↔
        |aeFactor stats.expMean - 1| < 1/20)) := by
  constructor
  · intro stats s frame hmeas hmean
    have hf : aeFactor stats.expMean = 1/2 := by
      rw [aeFactor, hmean]; norm_num
    refine ⟨hf, ?_⟩
    have hcond : ¬ (|aeFactor stats.expMean - 1| < 1/20) := by
      have h12 : ((1 : ℚ)/2 - 1) = -(1/2) := by norm_num
      rw [hf, h12, abs_neg, abs_of_nonneg (by norm_num : (0 : ℚ) ≤ 1/2)]
      norm_num
    have hstate : aeStateOf (aeFactor stats.expMean) = 1 := by
      rw [aeStateOf, if_neg hcond]
    by_cases hfr : frame % 3 = 0 <;>
      simp [updateStatistics, hmeas, hfr, hstate, metadataAction,
        List.getLast?]
  · intro stats s frame hmeas
    by_cases hc : |aeFactor stats.expMean - 1| < 1/20
    · have hstate : aeStateOf (aeFactor stats.expMean) = 2 := by
        rw [aeStateOf, if_pos hc]
      rw [one_div] at hc
      by_cases hfr : frame % 3 = 0 <;>
        simp [updateStatistics, hmeas, hfr, hstate, metadataAction,
          List.getLast?, hc]
    · have hstate : aeStateOf (aeFactor stats.expMean) = 1 := by
        rw [aeStateOf, if_neg hc]
      rw [one_div] at hc
      by_cases hfr : frame % 3 = 0 <;>
        simp [updateStatistics, hmeas, hfr, hstate, metadataAction,
          List.getLast?, hc]

theorem aeConvergenceReport_witness :
    aeFactor (List.replicate 25 120) = 1/2 ∧
    (updateStatistics 1 ⟨true, List.replicate 25 120⟩
        ⟨true, 100, 1, 1000, 10, 1, 100⟩).2.getLast? =
      some (Action.metadata (some false)) :=
  aeConvergenceReport.1 ⟨true, List.replicate 25 120⟩
    ⟨true, 100, 1, 1000, 10, 1, 100⟩ 1 rfl (by decide)

/-- Claim C6: after an auto-exposure step the stored exposure lies within
`[minExposure_, maxExposure_]` and the stored gain within
`[minGain_, maxGain_]` (whenever those stored ranges are non-degenerate, a
precondition of `std::clamp`); the gain update is, by definition, the
residual correction computed from the already-updated clamped exposure;
and after a successful `configure` (with non-degenerate discovered ranges)
the freshly initialised settings lie within their ranges as well. -/
theorem aeSettingsWithinRange :
    (∀ (s : AeState) (factor : ℚ),
      s.minExposure ≤ s.maxExposure → s.minGain ≤ s.maxGain →
      ((aeStep s factor).minExposure ≤ (aeStep s factor).exposure ∧
        (aeStep s factor).exposure ≤ (aeStep s factor).maxExposure) ∧
      ((aeStep s factor).minGain ≤ (aeStep s factor).gain ∧
        (aeStep s factor).gain ≤ (aeStep s factor).maxGain)) ∧
    (∀ (s : AeState) (factor : ℚ),
      (aeStep s factor).gain =
        clampU64
          (toU64 (aeRawExposure s factor /
            (((aeStep s factor).exposure : Nat) : ℚ) * (s.minGain : ℚ)))
          s.minGain s.maxGain) ∧
    (∀ (entityControls : List ControlInfoMap) (s : AeState),
      configure entityControls = .ok s →
      s.minExposure ≤ s.maxExposure → s.minGain ≤ s.maxGain →
      (s.minExposure ≤ s.exposure ∧ s.exposure ≤ s.maxExposure) ∧
      (s.minGain ≤ s.gain ∧ s.gain ≤ s.maxGain)) := by
  refine ⟨?_, ?_, ?_⟩
  · intro s factor h1 h2
    constructor
    · simpa [aeStep, aeNewExposure] using
        clampU64_mem (toU64 (aeRawExposure s factor)) s.minExposure
          s.maxExposure h1
    · simpa [aeStep] using
        clampU64_mem
          (toU64 (aeRawExposure s factor /
            ((aeNewExposure s factor : Nat) : ℚ) * (s.minGain : ℚ)))
          s.minGain s.maxGain h2
  · intro s factor
    rfl
  · intro ec s hok h1 h2
    cases ec with
    | nil => exact absurd hok (by simp [configure])
    | cons ctrls rest =>
      cases hE : ctrls.lookup CID_EXPOSURE with
      | none => simp [configure, hE] at hok
      | some e =>
        cases hG : ctrls.lookup CID_ANALOGUE_GAIN with
        | none => simp [configure, hE, hG] at hok
        | some g =>
          simp only [configure, hE, hG, Except.ok.injEq] at hok
          subst hok
          exact ⟨⟨Nat.le_refl _, h1⟩, ⟨Nat.le_refl _, h2⟩⟩

theorem aeSettingsWithinRange_witness :
    (1 ≤ (aeStep ⟨true, 5, 1, 100, 3, 1, 50⟩ 2).exposure ∧
      (aeStep ⟨true, 5, 1, 100, 3, 1, 50⟩ 2).exposure ≤ 100) ∧
    (1 ≤ (aeStep ⟨true, 5, 1, 100, 3, 1, 50⟩ 2).gain ∧
      (aeStep ⟨true, 5, 1, 100, 3, 1, 50⟩ 2).gain ≤ 50) :=
  aeSettingsWithinRange.1 ⟨true, 5, 1, 100, 3, 1, 50⟩ 2 (by decide)
    (by decide)

/-- Claim C7: the auto-exposure loop modifies the stored settings and emits
the controls-to-apply action only at the fixed one-in-three cadence: on any
statistics event whose frame is not a multiple of 3 the state is returned
unchanged and no emitted action is a controls-to-apply action, while at the
cadence (with auto-exposure statistics present) the state is stepped and
exactly one controls-to-apply action is emitted, followed by the
metadata-ready action. -/
theorem aeCadenceGating :
    (∀ (s : AeState) (stats : StatBuffer) (frame : Nat),
      frame % 3 ≠ 0 →
      (updateStatistics frame stats s).1 = s ∧
      ∀ a ∈ (updateStatistics frame stats s).2, a.isV4l2Set = false) ∧
    (∀ (s : AeState) (stats : StatBuffer) (frame : Nat),
      stats.measAutoExp = true → frame % 3 = 0 →
      (updateStatistics frame stats s).1 =
        aeStep s (aeFactor stats.expMean) ∧
      (updateStatistics frame stats s).2 =
        [setControlsAction (aeStep s (aeFactor stats.expMean)),
         metadataAction (aeStateOf (aeFactor stats.expMean))]) := by
  constructor
  · intro s stats frame hfr
    by_cases hm : stats.measAutoExp = true <;>
      simp [updateStatistics, hm, hfr, metadataAction, Action.isV4l2Set]
  · intro s stats frame hm hfr
    simp [updateStatistics, hm, hfr]

theorem aeCadenceGating_witness :
    (updateStatistics 2 ⟨true, List.replicate 25 120⟩
        ⟨true, 100, 1, 1000, 10, 1, 100⟩).1 =
      ⟨true, 100, 1, 1000, 10, 1, 100⟩ :=
  (aeCadenceGating.1 ⟨true, 100, 1, 1000, 10, 1, 100⟩
    ⟨true, List.replicate 25 120⟩ 2 (by decide)).1

/-- Claim C8: `configure` fails with `-EINVAL` when the supplied control
capability set is empty, when the exposure control is absent from it, or
when the gain control is absent from it; when both controls are present it
succeeds, initialising the ranges and settings. -/
theorem configureRequiredControls :
    (configure [] = .error (-22)) ∧
    (∀ (ctrls : ControlInfoMap) (rest : List ControlInfoMap),
      ctrls.lookup CID_EXPOSURE = none →
      configure (ctrls :: rest) = .error (-22)) ∧
    (∀ (ctrls : ControlInfoMap) (rest : List ControlInfoMap)
      (e : ControlInfoEntry),
      ctrls.lookup CID_EXPOSURE = some e →
      ctrls.lookup CID_ANALOGUE_GAIN = none →
      configure (ctrls :: rest) = .error (-22)) ∧
    (∀ (ctrls : ControlInfoMap) (rest : List ControlInfoMap)
      (e g : ControlInfoEntry),
      ctrls.lookup CID_EXPOSURE = some e →
      ctrls.lookup CID_ANALOGUE_GAIN = some g →
      configure (ctrls :: rest) =
        .ok { autoExposure := true,
              exposure := max (toU32 e.min) 1,
              minExposure := max (toU32 e.min) 1,
              maxExposure := toU32 e.max,
              gain := max (toU32 g.min) 1,
              minGain := max (toU32 g.min) 1,
              maxGain := toU32 g.max }) := by
  refine ⟨rfl, ?_, ?_, ?_⟩
  · intro ctrls rest hE
    simp [configure, hE]
  · intro ctrls rest e hE hG
    simp [configure, hE, hG]
  · intro ctrls rest e g hE hG
    simp [configure, hE, hG]

theorem configureRequiredControls_witness :
    configure [[(CID_EXPOSURE, ⟨2, 500⟩), (CID_ANALOGUE_GAIN, ⟨1, 64⟩)]] =
      .ok ⟨true, 2, 2, 500, 1, 1, 64⟩ :=
  configureRequiredControls.2.2.2
    [(CID_EXPOSURE, ⟨2, 500⟩), (CID_ANALOGUE_GAIN, ⟨1, 64⟩)] []
    ⟨2, 500⟩ ⟨1, 64⟩ (by decide) (by decide)

end RkISP1

/-! ### Vimc completion ordering -/

namespace Vimc

theorem trace_cons (e : BufferEvent) (events : List BufferEvent) :
    trace (e :: events) = bufferReady e ++ trace events := rfl

theorem trace_filter_of_notin (r : Nat) :
    ∀ events : List BufferEvent,
    r ∉ events.map BufferEvent.request →
    (trace events).filter (aboutRequest r) = [] := by
  intro events
  induction events with
  | nil => intro _; rfl
  | cons e es ih =>
    intro h
    simp only [List.map_cons, List.mem_cons, not_or] at h
    obtain ⟨h1, h2⟩ := h
    have hne : ¬ e.request = r := fun hh => h1 hh.symm
    rw [trace_cons, List.filter_append, ih h2, List.append_nil]
    simp [bufferReady, aboutRequest, hne]

/-- Claim C9: over any capture session in which each request's single
buffer completes exactly once (the vimc pipeline has one stream, so the
map from completed buffers to requests is injective), the notification
trace restricted to one request is exactly the pair buffer-completed then
request-completed: the buffer-completed notification precedes the
request-completed notification, and each fires exactly once for that
request. -/
theorem vimcCompletionExactlyOnce :
    ∀ (events : List BufferEvent),
      (events.map BufferEvent.request).Nodup →
      ∀ e ∈ events,
        (trace events).filter (aboutRequest e.request) =
          [Notification.bufferCompleted e.request e.buffer,
           Notification.requestCompleted e.request] := by
  intro events
  induction events with
  | nil => intro _ e he; cases he
  | cons x xs ih =>
    intro hnd e he
    simp only [List.map_cons, List.nodup_cons] at hnd
    obtain ⟨hnotin, hnd'⟩ := hnd
    rw [trace_cons, List.filter_append]
    rcases List.mem_cons.mp he with rfl | hmem
    · rw [trace_filter_of_notin e.request xs hnotin, List.append_nil]
      simp [bufferReady, aboutRequest]
    · have hne : ¬ x.request = e.request := by
        intro hh
        apply hnotin
        rw [hh]
        exact List.mem_map_of_mem _ hmem
      rw [ih hnd' e hmem]
      simp [bufferReady, aboutRequest, hne]

theorem vimcCompletionExactlyOnce_witness :
    (trace [⟨10, 100⟩, ⟨11, 101⟩]).filter (aboutRequest 101) =
      [Notification.bufferCompleted 101 11,
       Notification.requestCompleted 101] :=
  vimcCompletionExactlyOnce [⟨10, 100⟩, ⟨11, 101⟩] (by decide) ⟨11, 101⟩
    (by decide)

end Vimc

end LibCamera
